import Mathlib

/-
Verification development for the trustify ingestion core:
format sniffing (service/format.rs), the CVE loader
(service/advisory/cve/loader.rs) against the graph transaction facade,
and the CVE corpus walker handler (runner/cve/walker.rs).

The graph facade itself (transaction, upserts, link and description
operations) is not part of the analysed sources; those operations are
modelled from the specification (sections 3, 4.4 and 7) and are marked
as such in their doc comments.
-/

namespace Trustify

/-! ## JSON values

The sniffer inspects a byte buffer through structural probes.  A buffer
that any probe can match is a JSON document; we embed the probes as
functions over parsed JSON trees. -/

/-- A JSON value, the shape the structural probes of format.rs inspect. -/
inductive Json where
  | null : Json
  | bool (b : Bool) : Json
  | num (n : Int) : Json
  | str (s : String) : Json
  | arr (elems : List Json) : Json
  | obj (fields : List (String × Json)) : Json

/-- Top-level key lookup: the value of depth-1 key `k`, when the document
is an object containing it. -/
def Json.get : Json → String → Option Json
  | .obj fields, k => lookupField fields k
  | _, _ => none
where
  lookupField : List (String × Json) → String → Option Json
    | [], _ => none
    | (k', v) :: rest, k => if k' = k then some v else lookupField rest k

/-- The string content of a token: `get::<String>().unwrap_or_default()`
in the source yields the empty string for a non-string token. -/
def Json.asString : Json → String
  | .str s => s
  | _ => ""

/-- The service error type, restricted to the variants the analysed code
constructs. -/
inductive Error where
  | unsupportedFormat (msg : String) : Error
  | storage : Error
deriving DecidableEq

/-- The detected document dialect (enum `Format` of format.rs). -/
inductive Format where
  | osv | csaf | cve | spdx | cyclonedx | clearlyDefined | cweCatalog
  | advisory | sbom | unknown
deriving DecidableEq

/-- Probe result of `masked(mask, bytes)` for a depth-1 key: the matched
value rendered as a string, or none when the key is absent. -/
def maskedTop (j : Json) (k : String) : Option String :=
  (j.get k).map Json.asString

/-- CSAF probe: a `document` / `csaf_version` pair at depth 2. -/
def is_csaf (j : Json) : Bool :=
  ((j.get "document").bind (fun d => d.get "csaf_version")).isSome

/-- CVE probe: a top-level `dataType` key. -/
def is_cve (j : Json) : Bool :=
  (j.get "dataType").isSome

/-- OSV probe: a top-level `id` key. -/
def is_osv (j : Json) : Bool :=
  (j.get "id").isSome

/-- SPDX probe: a top-level `spdxVersion` key whose value must be one of
the supported versions; a recognized but unsupported version is a hard
error, distinct from the no-match outcome `ok false`. -/
def is_spdx (j : Json) : Except Error Bool :=
  match maskedTop j "spdxVersion" with
  | some x =>
      if x = "SPDX-2.2" ∨ x = "SPDX-2.3" then .ok true
      else .error (.unsupportedFormat ("SPDX version " ++ x ++ " is unsupported; try 2.2 or 2.3"))
  | none => .ok false

/-- CycloneDX probe: a top-level `specVersion` key, with version
validation analogous to the SPDX probe. -/
def is_cyclonedx (j : Json) : Except Error Bool :=
  match maskedTop j "specVersion" with
  | some x =>
      if x = "1.3" ∨ x = "1.4" ∨ x = "1.5" then .ok true
      else .error (.unsupportedFormat ("CycloneDX version " ++ x ++ " is unsupported; try 1.3, 1.4, or 1.5"))
  | none => .ok false

/-- ClearlyDefined probe: a YAML-shaped parse with a root `coordinates`
key.  A JSON document is valid YAML with the same structure, so on the
JSON values modelled here the probe is a root-key check. -/
def is_clearly_defined (j : Json) : Bool :=
  (j.get "coordinates").isSome

/-- CWE catalog probe: an XML parse looking for a root element named
Weakness_Catalog.  A buffer that parses as JSON is never an XML
document, so on the JSON values modelled here the probe always yields
`ok false` - and, as in the source, it never yields an error. -/
def is_cwe_catalog (_j : Json) : Except Error Bool :=
  .ok false

/-- `Format::advisory_from_bytes`: the advisory probes in their fixed
order CSAF, CVE, OSV. -/
def advisory_from_bytes (j : Json) : Except Error Format :=
  if is_csaf j then .ok .csaf
  else if is_cve j then .ok .cve
  else if is_osv j then .ok .osv
  else .error (.unsupportedFormat "Unable to detect advisory format; only CSAF, CVE, and OSV are supported")

/-- `Format::sbom_from_bytes`: SPDX, then CycloneDX, then
ClearlyDefined; a probe error propagates immediately. -/
def sbom_from_bytes (j : Json) : Except Error Format :=
  match is_spdx j with
  | .error e => .error e
  | .ok true => .ok .spdx
  | .ok false =>
    match is_cyclonedx j with
    | .error e => .error e
    | .ok true => .ok .cyclonedx
    | .ok false =>
      if is_clearly_defined j then .ok .clearlyDefined
      else .error (.unsupportedFormat "Unable to detect SBOM format; only SPDX and CycloneDX are supported")

/-- `Format::from_bytes`: advisory family first, then SBOM family, then
the CWE catalog probe.  Note the `.ok _` arm on the catalog probe: it
matches `ok false` as well, exactly as the `Ok(_)` pattern in the
source does. -/
def from_bytes (j : Json) : Except Error Format :=
  match advisory_from_bytes j with
  | .error (.unsupportedFormat ea) =>
    match sbom_from_bytes j with
    | .error (.unsupportedFormat es) =>
      match is_cwe_catalog j with
      | .ok _ => .ok .cweCatalog
      | .error _ => .error (.unsupportedFormat (ea ++ "\n" ++ es))
    | x => x
  | x => x

/-- A document declaring only an unsupported SPDX version. -/
def spdx21Doc : Json := .obj [("spdxVersion", .str "SPDX-2.1")]

/-- A minimal CSAF-shaped document. -/
def csafDoc : Json := .obj [("document", .obj [("csaf_version", .str "2.0")])]

/-- A minimal CVE-shaped document. -/
def cveDoc : Json := .obj [("dataType", .str "CVE_RECORD"), ("cveMetadata", .obj [])]

/-- A minimal OSV-shaped document. -/
def osvDoc : Json := .obj [("id", .str "RUSTSEC-2021-0079")]

/-- C4: for a buffer whose `spdxVersion` is present but unsupported, the
SPDX probe and the SBOM family do raise the distinct unsupported-version
error, but `from_bytes` then swallows it: the catalog probe returns
`ok false`, the `Ok(_)` arm matches it, and the buffer is classified as
CweCatalog instead of surfacing the version error. -/
theorem c4_spdx_version_fallback_bug :
    is_spdx spdx21Doc
      = .error (.unsupportedFormat "SPDX version SPDX-2.1 is unsupported; try 2.2 or 2.3")
    ∧ sbom_from_bytes spdx21Doc
      = .error (.unsupportedFormat "SPDX version SPDX-2.1 is unsupported; try 2.2 or 2.3")
    ∧ from_bytes spdx21Doc = .ok .cweCatalog := by
  refine ⟨rfl, rfl, rfl⟩

/-- C5: `from_bytes` classifies a buffer with a `document`/`csaf_version`
pair at depth 2 as CSAF; with a top-level `dataType` key and no CSAF pair
as CVE; with a top-level `id` key and neither of the former as OSV - the
advisory probes being tried in the fixed order CSAF, CVE, OSV. -/
theorem c5_advisory_probe_order (j : Json) :
    (is_csaf j = true → from_bytes j = .ok .csaf)
    ∧ (is_csaf j = false → is_cve j = true → from_bytes j = .ok .cve)
    ∧ (is_csaf j = false → is_cve j = false → is_osv j = true →
        from_bytes j = .ok .osv) := by
  refine ⟨?_, ?_, ?_⟩ <;> intros <;>
    simp_all [from_bytes, advisory_from_bytes]

/-- C5 witness: the three probe situations at concrete documents. -/
theorem c5_advisory_probe_order_witness :
    (is_csaf csafDoc = true ∧ from_bytes csafDoc = .ok .csaf)
    ∧ (is_cve cveDoc = true ∧ from_bytes cveDoc = .ok .cve)
    ∧ (is_osv osvDoc = true ∧ from_bytes osvDoc = .ok .osv) :=
  ⟨⟨rfl, (c5_advisory_probe_order csafDoc).1 rfl⟩,
   ⟨rfl, (c5_advisory_probe_order cveDoc).2.1 rfl rfl⟩,
   ⟨rfl, (c5_advisory_probe_order osvDoc).2.2 rfl rfl rfl⟩⟩

/-! ## The parsed CVE record

The fields of the `cve` crate record that `CveLoader::load` reads.
Timestamps are already in UTC in the model, so `Timestamp::assume_utc`
is the identity and timestamps are plain naturals. -/

/-- One entry of a description list: a `(language, text)` pair. -/
structure Description where
  language : String
  value : String
deriving DecidableEq

/-- One description inside a problem-type entry; only its optional
`cwe_id` is read by the loader. -/
structure ProblemTypeDescription where
  cweId : Option String
deriving DecidableEq

/-- One problem-type entry of a published record. -/
structure ProblemType where
  descriptions : List ProblemTypeDescription
deriving DecidableEq

/-- The CNA container of a published record, restricted to the fields
the loader reads. -/
structure CnaPublished where
  title : Option String
  dateAssigned : Option Nat
  descriptions : List Description
  problemTypes : List ProblemType
  providerShortName : Option String
deriving DecidableEq

/-- The CNA container of a rejected record. -/
structure CnaRejected where
  rejectedReasons : List Description
  providerShortName : Option String
deriving DecidableEq

/-- The metadata common to both record states. -/
structure CveMetadata where
  cveId : String
  datePublished : Option Nat
  dateUpdated : Option Nat
deriving DecidableEq

/-- A parsed CVE record: either published or rejected.  A rejected
record additionally carries its rejection date. -/
inductive Cve where
  | published (metadata : CveMetadata) (cna : CnaPublished) : Cve
  | rejected (metadata : CveMetadata) (dateRejected : Option Nat) (cna : CnaRejected) : Cve
deriving DecidableEq

/-- `cve.id()`: the record identifier. -/
def Cve.id : Cve → String
  | .published md _ => md.cveId
  | .rejected md _ _ => md.cveId

/-- `cve.common_metadata().date_published`. -/
def Cve.datePublished : Cve → Option Nat
  | .published md _ => md.datePublished
  | .rejected md _ _ => md.datePublished

/-- `cve.common_metadata().date_updated`. -/
def Cve.dateUpdated : Cve → Option Nat
  | .published md _ => md.dateUpdated
  | .rejected md _ _ => md.dateUpdated

/-- The flattened weakness identifiers of a published record: all
problem-type entries, each entry's descriptions, each description's
optional `cwe_id`. -/
def flattenCwes (pts : List ProblemType) : List String :=
  (pts.flatMap (fun pt => pt.descriptions)).filterMap (fun d => d.cweId)

/-- The per-state tuple the loader destructures (title, assigned,
withdrawn, descriptions, cwe, org_name). -/
structure Extracted where
  title : Option String
  assigned : Option Nat
  withdrawn : Option Nat
  descriptions : List Description
  cwes : Option (List String)
  orgName : Option String
deriving DecidableEq

/-- The `match &cve` of `CveLoader::load` (loader.rs lines 51-98):
branch on the record state and extract the per-state fields. -/
def extract : Cve → Extracted
  | .rejected _ dateRejected cna =>
      ⟨none, none, dateRejected, cna.rejectedReasons, none, cna.providerShortName⟩
  | .published _ cna =>
      ⟨cna.title, cna.dateAssigned, none, cna.descriptions,
        (if (flattenCwes cna.problemTypes).isEmpty then none
         else some (flattenCwes cna.problemTypes)),
        cna.providerShortName⟩

/-- C6: a rejected record yields withdrawn = rejection date, the
rejection reasons as the description set, and no title, assignment date
or weaknesses; a published record yields the title, assignment date,
CNA descriptions, and the flattened problem-type weakness identifiers
(absent when that flattened list is empty). -/
theorem c6_state_branch_extraction :
    (∀ (md : CveMetadata) (dr : Option Nat) (cna : CnaRejected),
      extract (Cve.rejected md dr cna)
        = ⟨none, none, dr, cna.rejectedReasons, none, cna.providerShortName⟩)
    ∧ (∀ (md : CveMetadata) (cna : CnaPublished),
      extract (Cve.published md cna)
        = ⟨cna.title, cna.dateAssigned, none, cna.descriptions,
            (if (flattenCwes cna.problemTypes).isEmpty then none
             else some (flattenCwes cna.problemTypes)),
            cna.providerShortName⟩) :=
  ⟨fun _ _ _ => rfl, fun _ _ => rfl⟩

/-! ## The graph and the CVE loader

`CveLoader::load` of service/advisory/cve/loader.rs, executed against the
graph transaction facade.  The facade (the `Graph` module) is not among
the analysed sources; its operations are modelled from the specification:
idempotent upsert of a vulnerability by identifier, idempotent upsert of
an advisory by (identifier, digest) with a fresh storage UUID on
creation, link creation/replacement with per-link metadata, and a
description set keyed by (language, owning advisory) with replacement
scoped to (vulnerability, owning advisory) (spec sections 3 and 4.4). -/

/-- The vulnerability fields the loader upserts. -/
structure VulnerabilityInformation where
  title : Option String
  published : Option Nat
  modified : Option Nat
  withdrawn : Option Nat
  cwes : Option (List String)
deriving DecidableEq

/-- The advisory fields the loader upserts. -/
structure AdvisoryInformation where
  title : Option String
  issuer : Option String
  published : Option Nat
  modified : Option Nat
  withdrawn : Option Nat
deriving DecidableEq

/-- The per-advisory vulnerability metadata attached to the
advisory-vulnerability link. -/
structure AdvisoryVulnerabilityInformation where
  title : Option String
  summary : Option String
  description : Option String
  discoveryDate : Option Nat
  releaseDate : Option Nat
  cwes : Option (List String)
deriving DecidableEq

/-- The digest set of the ingested bytes; the loader keys advisories by
the primary (sha256) digest. -/
structure Digests where
  sha256 : String
deriving DecidableEq

/-- The storage identifier in an ingestion result (`Id::Uuid`). -/
inductive Id where
  | uuid (v : Nat) : Id
deriving DecidableEq

/-- The result of a successful ingestion. -/
structure IngestResult where
  id : Id
  documentId : String
  warnings : List String
deriving DecidableEq

/-- Replace the value of an existing key in place, or append the pair:
the insertion discipline of an ordered key-value mapping. -/
def upsertPair (acc : List (String × String)) (e : String × String) :
    List (String × String) :=
  match acc with
  | [] => [e]
  | p :: rest => if p.1 = e.1 then e :: rest else p :: upsertPair rest e

/-- `Labels::add`: the labels are an ordered mapping of key to value. -/
def labelsAdd (labels : List (String × String)) (k v : String) :
    List (String × String) :=
  upsertPair labels (k, v)

/-- A stored vulnerability row, keyed by its identifier. -/
structure VulnerabilityRow where
  identifier : String
  information : VulnerabilityInformation
deriving DecidableEq

/-- A stored advisory row, keyed by (identifier, digest), carrying the
storage UUID assigned on creation. -/
structure AdvisoryRow where
  uuid : Nat
  identifier : String
  sha256 : String
  labels : List (String × String)
  information : AdvisoryInformation
deriving DecidableEq

/-- A stored advisory-vulnerability link, keyed by (advisory UUID,
vulnerability identifier). -/
structure LinkRow where
  advisoryUuid : Nat
  vulnerabilityId : String
  information : Option AdvisoryVulnerabilityInformation
deriving DecidableEq

/-- A stored description row: the description set is keyed by
(vulnerability, owning advisory, language). -/
structure DescriptionRow where
  vulnerabilityId : String
  advisoryUuid : Nat
  language : String
  text : String
deriving DecidableEq

/-- The committed graph state; `nextUuid` is the fresh-UUID supply of
the store. -/
structure GraphState where
  vulnerabilities : List VulnerabilityRow
  advisories : List AdvisoryRow
  links : List LinkRow
  descriptions : List DescriptionRow
  nextUuid : Nat
deriving DecidableEq

/-- The graph before any ingestion. -/
def GraphState.empty : GraphState := ⟨[], [], [], [], 0⟩

/-- Modelled from the spec: idempotent upsert of a vulnerability by
identifier - update the first row with this identifier in place, or
append a new row (spec section 4.4). -/
def upsertVuln (id : String) (info : VulnerabilityInformation) :
    List VulnerabilityRow → List VulnerabilityRow
  | [] => [⟨id, info⟩]
  | v :: rest =>
      if v.identifier = id then ⟨id, info⟩ :: rest
      else v :: upsertVuln id info rest

/-- `Graph::ingest_vulnerability` against the transaction state. -/
def ingest_vulnerability (id : String) (info : VulnerabilityInformation)
    (st : GraphState) : GraphState :=
  { st with vulnerabilities := upsertVuln id info st.vulnerabilities }

/-- Modelled from the spec: look up an advisory by its (identifier,
digest) identity - the digest is the canonical identity for duplicate
suppression (spec section 3). -/
def findAdvisory (id digest : String) : List AdvisoryRow → Option AdvisoryRow
  | [] => none
  | a :: rest =>
      if a.identifier = id ∧ a.sha256 = digest then some a
      else findAdvisory id digest rest

/-- Modelled from the spec: idempotent upsert of an advisory keyed by
(identifier, digest); an existing row is updated in place keeping its
UUID, a new row is appended with the next fresh UUID (spec sections 3
and 4.4).  Returns the rows, the UUID of the upserted advisory, and the
updated fresh-UUID supply. -/
def upsertAdvisory (id : String) (labels : List (String × String))
    (digest : String) (info : AdvisoryInformation) (nextU : Nat) :
    List AdvisoryRow → List AdvisoryRow × Nat × Nat
  | [] => ([⟨nextU, id, digest, labels, info⟩], nextU, nextU + 1)
  | a :: rest =>
      if a.identifier = id ∧ a.sha256 = digest then
        ({ a with labels := labels, information := info } :: rest, a.uuid, nextU)
      else
        let r := upsertAdvisory id labels digest info nextU rest
        (a :: r.1, r.2.1, r.2.2)

/-- `Graph::ingest_advisory` against the transaction state; the second
component is the storage UUID of the upserted advisory. -/
def ingest_advisory (id : String) (labels : List (String × String))
    (digest : String) (info : AdvisoryInformation) (st : GraphState) :
    GraphState × Nat :=
  let r := upsertAdvisory id labels digest info st.nextUuid st.advisories
  ({ st with advisories := r.1, nextUuid := r.2.2 }, r.2.1)

/-- Modelled from the spec: link creation/replacement keyed by
(advisory UUID, vulnerability identifier) with per-link metadata (spec
section 4.4). -/
def upsertLink (auuid : Nat) (vid : String)
    (info : Option AdvisoryVulnerabilityInformation) :
    List LinkRow → List LinkRow
  | [] => [⟨auuid, vid, info⟩]
  | l :: rest =>
      if l.advisoryUuid = auuid ∧ l.vulnerabilityId = vid then
        ⟨auuid, vid, info⟩ :: rest
      else l :: upsertLink auuid vid info rest

/-- `link_to_vulnerability` against the transaction state. -/
def link_to_vulnerability (auuid : Nat) (vid : String)
    (info : Option AdvisoryVulnerabilityInformation) (st : GraphState) :
    GraphState :=
  { st with links := upsertLink auuid vid info st.links }

/-- Does this description row belong to the given (vulnerability,
owning advisory) pair? -/
def ownedBy (vid : String) (auuid : Nat) (d : DescriptionRow) : Bool :=
  d.vulnerabilityId == vid && d.advisoryUuid == auuid

/-- `drop_descriptions_for_advisory`: modelled from the spec -
description replacement is scoped to (vulnerability, owning advisory),
so the drop removes exactly the rows owned by that pair (spec
section 4.4). -/
def drop_descriptions_for_advisory (vid : String) (auuid : Nat)
    (st : GraphState) : GraphState :=
  { st with descriptions := st.descriptions.filter (fun d => !(ownedBy vid auuid d)) }

/-- Modelled from the spec: one description insert into the set keyed by
(vulnerability, owning advisory, language) - the description set of a
vulnerability is keyed by (language, owning advisory) (spec section 3). -/
def insertDescription (vid : String) (auuid : Nat) (lang text : String) :
    List DescriptionRow → List DescriptionRow
  | [] => [⟨vid, auuid, lang, text⟩]
  | d :: rest =>
      if d.vulnerabilityId = vid ∧ d.advisoryUuid = auuid ∧ d.language = lang then
        ⟨vid, auuid, lang, text⟩ :: rest
      else d :: insertDescription vid auuid lang text rest

/-- `add_descriptions`: insert every collected (language, text) entry. -/
def add_descriptions (vid : String) (auuid : Nat)
    (entries : List (String × String)) (st : GraphState) : GraphState :=
  { st with descriptions :=
      entries.foldl (fun acc e => insertDescription vid auuid e.1 e.2 acc) st.descriptions }

/-- Read-side lookup of a vulnerability by identifier
(`Graph::get_vulnerability`), modelled from the spec (section 4.4). -/
def get_vulnerability (id : String) (st : GraphState) : Option VulnerabilityRow :=
  st.vulnerabilities.find? (fun v => v.identifier == id)

/-- Read-side view: the (language, text) description set owned by the
given (vulnerability, owning advisory) pair. -/
def descriptionsFor (vid : String) (auuid : Nat) (st : GraphState) :
    List (String × String) :=
  (st.descriptions.filter (ownedBy vid auuid)).map (fun d => (d.language, d.text))

/-- Read-side lookup of the advisory-vulnerability link. -/
def getLink (auuid : Nat) (vid : String) (st : GraphState) : Option LinkRow :=
  st.links.find? (fun l => l.advisoryUuid == auuid && l.vulnerabilityId == vid)

/-- The summary field of the link metadata, when the link and its
metadata exist. -/
def linkSummary (auuid : Nat) (vid : String) (st : GraphState) : Option String :=
  match getLink auuid vid st with
  | some l => match l.information with
    | some i => i.summary
    | none => none
  | none => none

/-- The description field of the link metadata, when the link and its
metadata exist. -/
def linkDescription (auuid : Nat) (vid : String) (st : GraphState) : Option String :=
  match getLink auuid vid st with
  | some l => match l.information with
    | some i => i.description
    | none => none
  | none => none

/-- The (language, text) entries pushed for `add_descriptions` (the
`entries` vector of the loader). -/
def collectEntries (descs : List Description) : List (String × String) :=
  descs.map (fun d => (d.language, d.value))

/-- The separately retained English text: the loop keeps the value of
the last description whose language is en. -/
def englishOf (descs : List Description) : Option String :=
  descs.foldl (fun acc d => if d.language = "en" then some d.value else acc) none

/-- The `VulnerabilityInformation` the loader builds (loader.rs
lines 100-106). -/
def vulnInfoOf (cve : Cve) : VulnerabilityInformation :=
  ⟨(extract cve).title, cve.datePublished, cve.dateUpdated,
    (extract cve).withdrawn, (extract cve).cwes⟩

/-- The `AdvisoryInformation` the loader builds (loader.rs
lines 123-129). -/
def advInfoOf (cve : Cve) : AdvisoryInformation :=
  ⟨(extract cve).title, (extract cve).orgName, cve.datePublished,
    cve.dateUpdated, (extract cve).withdrawn⟩

/-- The `AdvisoryVulnerabilityInformation` the loader attaches to the
link (loader.rs lines 139-146): the summary field is left empty and the
English text goes into the description field. -/
def linkInfoOf (cve : Cve) : AdvisoryVulnerabilityInformation :=
  ⟨(extract cve).title, none, englishOf (extract cve).descriptions,
    (extract cve).assigned, cve.datePublished, (extract cve).cwes⟩

/-- Modelled from the spec: a storage-failure plan for one load call -
each facade operation issued inside the transaction may fail with a
storage error (spec section 7, StorageError), and the commit itself may
fail. -/
structure FailurePlan where
  failVulnerability : Bool
  failAdvisory : Bool
  failLink : Bool
  failDrop : Bool
  failAdd : Bool
  failCommit : Bool
deriving DecidableEq

/-- The plan of a run in which every facade operation succeeds. -/
def noFailures : FailurePlan := ⟨false, false, false, false, false, false⟩

/-- `CveLoader::load`: derive the identifier and the `type=cve` label,
extract the per-state fields, upsert the vulnerability, upsert the
advisory keyed by (identifier, digest), link the advisory to the
vulnerability with the per-advisory metadata, drop and re-insert the
description set owned by this advisory, then commit.  Every step runs
against the transaction state; a failing step returns the error
immediately, before commit.  On success the transaction state and the
ingestion result (advisory UUID, document identifier, empty warning
list) are returned. -/
def load (plan : FailurePlan) (labels : List (String × String)) (cve : Cve)
    (digests : Digests) (st : GraphState) :
    Except Error (GraphState × IngestResult) :=
  if plan.failVulnerability = true then .error .storage else
  let st₁ := ingest_vulnerability cve.id (vulnInfoOf cve) st
  if plan.failAdvisory = true then .error .storage else
  let a := ingest_advisory cve.id (labelsAdd labels "type" "cve")
    digests.sha256 (advInfoOf cve) st₁
  if plan.failLink = true then .error .storage else
  let st₃ := link_to_vulnerability a.2 cve.id (some (linkInfoOf cve)) a.1
  if plan.failDrop = true then .error .storage else
  let st₄ := drop_descriptions_for_advisory cve.id a.2 st₃
  if plan.failAdd = true then .error .storage else
  let st₅ := add_descriptions cve.id a.2 (collectEntries (extract cve).descriptions) st₄
  if plan.failCommit = true then .error .storage else
  .ok (st₅, ⟨Id.uuid a.2, cve.id, []⟩)

/-- The committed state a reader observes after the call: the new state
on success; on any error the transaction is rolled back and the state
is unchanged (modelled from the spec: full success or full rollback,
spec section 4.4). -/
def loadState (plan : FailurePlan) (labels : List (String × String)) (cve : Cve)
    (digests : Digests) (st : GraphState) : GraphState :=
  match load plan labels cve digests st with
  | .ok p => p.1
  | .error _ => st

/-- The per-language keyed image of a list of (language, text) entries:
inserting the entries in order into an initially empty description set
keyed by language. -/
def keyedPairs (l : List (String × String)) : List (String × String) :=
  l.foldl upsertPair []

/-- The description row a (language, text) entry becomes under a given
(vulnerability, owning advisory) pair. -/
def liftPair (vid : String) (auuid : Nat) (p : String × String) : DescriptionRow :=
  ⟨vid, auuid, p.1, p.2⟩

theorem insertDescription_append (vid : String) (auuid : Nat) (lang text : String)
    (l₀ m : List DescriptionRow) (h : ∀ d ∈ l₀, ownedBy vid auuid d = false) :
    insertDescription vid auuid lang text (l₀ ++ m)
      = l₀ ++ insertDescription vid auuid lang text m := by
  induction l₀ with
  | nil => rfl
  | cons d rest ih =>
      have hd : ownedBy vid auuid d = false := h d (by simp)
      have hcond : ¬(d.vulnerabilityId = vid ∧ d.advisoryUuid = auuid ∧ d.language = lang) := by
        intro hc
        simp [ownedBy, hc.1, hc.2.1] at hd
      simp only [List.cons_append, insertDescription, if_neg hcond]
      exact congrArg (List.cons d) (ih (fun d hd' => h d (by simp [hd'])))

theorem foldl_insert_append (vid : String) (auuid : Nat)
    (entries : List (String × String)) :
    ∀ (l₀ m : List DescriptionRow), (∀ d ∈ l₀, ownedBy vid auuid d = false) →
      entries.foldl (fun acc e => insertDescription vid auuid e.1 e.2 acc) (l₀ ++ m)
        = l₀ ++ entries.foldl (fun acc e => insertDescription vid auuid e.1 e.2 acc) m := by
  induction entries with
  | nil => intro l₀ m _; rfl
  | cons e es ih =>
      intro l₀ m h
      simp only [List.foldl_cons]
      rw [insertDescription_append vid auuid e.1 e.2 l₀ m h]
      exact ih l₀ (insertDescription vid auuid e.1 e.2 m) h

theorem insertDescription_map_lift (vid : String) (auuid : Nat) (lang text : String)
    (ps : List (String × String)) :
    insertDescription vid auuid lang text (ps.map (liftPair vid auuid))
      = (upsertPair ps (lang, text)).map (liftPair vid auuid) := by
  induction ps with
  | nil => rfl
  | cons p rest ih =>
      by_cases hc : p.1 = lang
      · simp [insertDescription, upsertPair, liftPair, hc]
      · simp [insertDescription, upsertPair, liftPair, hc, ih]

theorem foldl_insert_map_lift (vid : String) (auuid : Nat)
    (entries : List (String × String)) :
    ∀ ps : List (String × String),
      entries.foldl (fun acc e => insertDescription vid auuid e.1 e.2 acc)
          (ps.map (liftPair vid auuid))
        = (entries.foldl upsertPair ps).map (liftPair vid auuid) := by
  induction entries with
  | nil => intro ps; rfl
  | cons e es ih =>
      intro ps
      simp only [List.foldl_cons]
      rw [insertDescription_map_lift vid auuid e.1 e.2 ps, Prod.mk.eta]
      exact ih (upsertPair ps e)

/-- The description rows after the drop-then-insert of one load call:
the rows not owned by the (vulnerability, advisory) pair survive
unchanged, followed by the keyed image of the freshly collected
entries. -/
theorem descriptions_after_replace (vid : String) (auuid : Nat)
    (entries : List (String × String)) (base : List DescriptionRow) :
    entries.foldl (fun acc e => insertDescription vid auuid e.1 e.2 acc)
        (base.filter (fun d => !(ownedBy vid auuid d)))
      = base.filter (fun d => !(ownedBy vid auuid d))
        ++ (keyedPairs entries).map (liftPair vid auuid) := by
  have h₀ : ∀ d ∈ base.filter (fun d => !(ownedBy vid auuid d)),
      ownedBy vid auuid d = false := by
    intro d hd
    simpa using List.of_mem_filter hd
  have hsplit := foldl_insert_append vid auuid entries
    (base.filter (fun d => !(ownedBy vid auuid d))) [] h₀
  rw [List.append_nil] at hsplit
  rw [hsplit]
  congr 1
  simpa [keyedPairs] using foldl_insert_map_lift vid auuid entries []

theorem map_pair_lift (vid : String) (auuid : Nat) (ks : List (String × String)) :
    (ks.map (liftPair vid auuid)).map (fun d => (d.language, d.text)) = ks := by
  induction ks with
  | nil => rfl
  | cons p rest ih => simp [liftPair, ih]

theorem filter_owned_append_lift (vid : String) (auuid : Nat)
    (l₀ : List DescriptionRow) (ks : List (String × String))
    (h : ∀ d ∈ l₀, ownedBy vid auuid d = false) :
    ((l₀ ++ ks.map (liftPair vid auuid)).filter (ownedBy vid auuid)).map
        (fun d => (d.language, d.text))
      = ks := by
  rw [List.filter_append]
  have h1 : l₀.filter (ownedBy vid auuid) = [] := by
    rw [List.filter_eq_nil_iff]
    intro d hd
    simp [h d hd]
  have h2 : (ks.map (liftPair vid auuid)).filter (ownedBy vid auuid)
      = ks.map (liftPair vid auuid) := by
    rw [List.filter_eq_self]
    intro d hd
    obtain ⟨p, _, rfl⟩ := List.mem_map.mp hd
    simp [liftPair, ownedBy]
  rw [h1, h2, List.nil_append]
  exact map_pair_lift vid auuid ks

theorem upsertPair_not_mem (acc : List (String × String)) (e : String × String)
    (h : ∀ q ∈ acc, q.1 ≠ e.1) : upsertPair acc e = acc ++ [e] := by
  induction acc with
  | nil => rfl
  | cons q rest ih =>
      have hq : ¬ q.1 = e.1 := h q (by simp)
      simp only [upsertPair, if_neg hq, List.cons_append]
      rw [ih (fun q' hq' => h q' (by simp [hq']))]

theorem foldl_upsertPair_of_nodup (l : List (String × String)) :
    ∀ acc : List (String × String),
      (∀ p ∈ l, ∀ q ∈ acc, q.1 ≠ p.1) → (l.map Prod.fst).Nodup →
      l.foldl upsertPair acc = acc ++ l := by
  induction l with
  | nil => intro acc _ _; simp
  | cons e es ih =>
      intro acc hdis hnd
      rw [List.map_cons] at hnd
      obtain ⟨hhead, htail⟩ := List.nodup_cons.mp hnd
      simp only [List.foldl_cons]
      rw [upsertPair_not_mem acc e (fun q hq => hdis e (by simp) q hq)]
      rw [ih (acc ++ [e]) ?_ htail]
      · simp
      · intro p hp q hq
        rcases List.mem_append.mp hq with hq | hq
        · exact hdis p (by simp [hp]) q hq
        · have : q = e := by simpa using hq
          subst this
          intro hqe
          exact hhead (hqe ▸ List.mem_map_of_mem Prod.fst hp)

/-- When the entry languages are pairwise distinct, the keyed image is
the entry list itself. -/
theorem keyedPairs_self_of_nodup (l : List (String × String))
    (h : (l.map Prod.fst).Nodup) : keyedPairs l = l := by
  have := foldl_upsertPair_of_nodup l [] (by simp) h
  simpa [keyedPairs] using this

/-- A representative published CVE record. -/
def sampleDoc : Cve :=
  .published ⟨"CVE-2024-0001", some 100, some 200⟩
    ⟨some "Sample title", some 50,
      [⟨"en", "english text"⟩, ⟨"de", "german text"⟩],
      [⟨[⟨some "CWE-79"⟩]⟩],
      some "sample-org"⟩

/-- A published CVE record with two descriptions in the same language. -/
def dupEnDoc : Cve :=
  .published ⟨"CVE-2024-0002", none, none⟩
    ⟨none, none, [⟨"en", "first text"⟩, ⟨"en", "second text"⟩], [], none⟩

/-- A sample digest set. -/
def sampleDigests : Digests := ⟨"d1d1"⟩

/-- The committed state after ingesting the representative record into
the empty graph. -/
def sampleState : GraphState :=
  loadState noFailures [] sampleDoc sampleDigests GraphState.empty

/-- The ingestion result of that run. -/
def sampleResult : IngestResult := ⟨Id.uuid 0, "CVE-2024-0001", []⟩

/-- C1: when any pre-commit step of the load fails (the vulnerability
upsert, the advisory upsert, the link creation, the description drop or
the description insert), the call returns an error, the committed state
a reader observes is unchanged, and in particular the lookup of the
vulnerability gives what it gave before the call - a vulnerability
upserted earlier inside the same failed call is not observable. -/
theorem c1_failed_load_leaves_state_unchanged (plan : FailurePlan)
    (labels : List (String × String)) (cve : Cve) (digests : Digests)
    (st : GraphState)
    (h : plan.failVulnerability = true ∨ plan.failAdvisory = true
      ∨ plan.failLink = true ∨ plan.failDrop = true ∨ plan.failAdd = true) :
    (∃ e, load plan labels cve digests st = .error e)
    ∧ loadState plan labels cve digests st = st
    ∧ get_vulnerability cve.id (loadState plan labels cve digests st)
        = get_vulnerability cve.id st := by
  have he : load plan labels cve digests st = .error .storage := by
    cases h1 : plan.failVulnerability <;> cases h2 : plan.failAdvisory <;>
      cases h3 : plan.failLink <;> cases h4 : plan.failDrop <;>
      cases h5 : plan.failAdd <;> simp_all [load]
  refine ⟨⟨.storage, he⟩, ?_, ?_⟩ <;> simp [loadState, he]

/-- C1 witness: a run whose advisory upsert fails, after the
vulnerability upsert inside the same transaction, starting from the
empty graph. -/
theorem c1_failed_load_leaves_state_unchanged_witness :
    (∃ e, load ⟨false, true, false, false, false, false⟩ [] sampleDoc
      sampleDigests GraphState.empty = .error e)
    ∧ loadState ⟨false, true, false, false, false, false⟩ [] sampleDoc
        sampleDigests GraphState.empty = GraphState.empty
    ∧ get_vulnerability sampleDoc.id
        (loadState ⟨false, true, false, false, false, false⟩ [] sampleDoc
          sampleDigests GraphState.empty)
      = get_vulnerability sampleDoc.id GraphState.empty :=
  c1_failed_load_leaves_state_unchanged ⟨false, true, false, false, false, false⟩
    [] sampleDoc sampleDigests GraphState.empty (Or.inr (Or.inl rfl))

/-- After the advisory upsert, the upserted (identifier, digest) row is
found by the digest lookup and carries the returned UUID together with
the ingested labels and information. -/
theorem findAdvisory_upsertAdvisory (id : String)
    (labels : List (String × String)) (digest : String)
    (info : AdvisoryInformation) :
    ∀ (l : List AdvisoryRow) (n : Nat),
      findAdvisory id digest (upsertAdvisory id labels digest info n l).1
        = some ⟨(upsertAdvisory id labels digest info n l).2.1, id, digest,
            labels, info⟩ := by
  intro l
  induction l with
  | nil => intro n; simp [upsertAdvisory, findAdvisory]
  | cons a rest ih =>
      intro n
      by_cases hc : a.identifier = id ∧ a.sha256 = digest
      · obtain ⟨hc1, hc2⟩ := hc
        simp [upsertAdvisory, findAdvisory, hc1, hc2]
      · simp [upsertAdvisory, findAdvisory, hc, ih]

/-- C10: a successful load returns an ingestion result with an empty
warning list, the document identifier equal to the CVE record
identifier (the identifier used for both upserts), and a storage id
equal to the UUID of the advisory row upserted for (identifier,
digest). -/
theorem c10_ingest_result_shape (labels : List (String × String)) (cve : Cve)
    (digests : Digests) (st : GraphState) (st' : GraphState) (r : IngestResult)
    (h : load noFailures labels cve digests st = .ok (st', r)) :
    r.warnings = [] ∧ r.documentId = cve.id
    ∧ ∃ u, r.id = Id.uuid u
        ∧ findAdvisory cve.id digests.sha256 st'.advisories
          = some ⟨u, cve.id, digests.sha256, labelsAdd labels "type" "cve",
              advInfoOf cve⟩ := by
  unfold load noFailures at h
  simp at h
  obtain ⟨h1, h2⟩ := h
  subst h1
  subst h2
  refine ⟨rfl, rfl, _, rfl, ?_⟩
  exact findAdvisory_upsertAdvisory cve.id (labelsAdd labels "type" "cve")
    digests.sha256 (advInfoOf cve)
    (ingest_vulnerability cve.id (vulnInfoOf cve) st).advisories
    (ingest_vulnerability cve.id (vulnInfoOf cve) st).nextUuid

/-- C10 witness: the result shape at the representative record ingested
into the empty graph. -/
theorem c10_ingest_result_shape_witness :
    load noFailures [] sampleDoc sampleDigests GraphState.empty
      = .ok (sampleState, sampleResult)
    ∧ (sampleResult.warnings = [] ∧ sampleResult.documentId = sampleDoc.id
      ∧ ∃ u, sampleResult.id = Id.uuid u
          ∧ findAdvisory sampleDoc.id sampleDigests.sha256 sampleState.advisories
            = some ⟨u, sampleDoc.id, sampleDigests.sha256,
                labelsAdd [] "type" "cve", advInfoOf sampleDoc⟩) :=
  ⟨rfl, c10_ingest_result_shape [] sampleDoc sampleDigests GraphState.empty
    sampleState sampleResult rfl⟩

/-- After the link upsert, the (advisory UUID, vulnerability) link is
found and carries the fresh metadata. -/
theorem find_upsertLink (auuid : Nat) (vid : String)
    (info : Option AdvisoryVulnerabilityInformation) :
    ∀ l : List LinkRow,
      (upsertLink auuid vid info l).find?
          (fun x => x.advisoryUuid == auuid && x.vulnerabilityId == vid)
        = some ⟨auuid, vid, info⟩ := by
  intro l
  induction l with
  | nil => simp [upsertLink, List.find?]
  | cons x rest ih =>
      by_cases hc : x.advisoryUuid = auuid ∧ x.vulnerabilityId = vid
      · obtain ⟨h1, h2⟩ := hc
        simp [upsertLink, h1, h2, List.find?]
      · have hb : (x.advisoryUuid == auuid && x.vulnerabilityId == vid) = false := by
          by_cases h1 : x.advisoryUuid = auuid
          · have h2 : ¬ x.vulnerabilityId = vid := fun h2 => hc ⟨h1, h2⟩
            simp [h1, h2]
          · simp [h1]
        simp only [upsertLink, if_neg hc]
        rw [List.find?_cons, hb]
        exact ih

theorem linkDescription_eq (auuid : Nat) (vid : String) (st : GraphState)
    (i : AdvisoryVulnerabilityInformation)
    (h : getLink auuid vid st = some ⟨auuid, vid, some i⟩) :
    linkDescription auuid vid st = i.description := by
  simp [linkDescription, h]

theorem linkSummary_eq (auuid : Nat) (vid : String) (st : GraphState)
    (i : AdvisoryVulnerabilityInformation)
    (h : getLink auuid vid st = some ⟨auuid, vid, some i⟩) :
    linkSummary auuid vid st = i.summary := by
  simp [linkSummary, h]

theorem englishOf_fold_some (descs : List Description) :
    ∀ v : String, ∃ t,
      descs.foldl (fun acc d => if d.language = "en" then some d.value else acc)
        (some v) = some t := by
  induction descs with
  | nil => intro v; exact ⟨v, rfl⟩
  | cons d rest ih =>
      intro v
      simp only [List.foldl_cons]
      by_cases hd : d.language = "en"
      · rw [if_pos hd]; exact ih d.value
      · rw [if_neg hd]; exact ih v

/-- A record containing an English description always yields a retained
English text. -/
theorem englishOf_some_of_mem_en (descs : List Description) :
    ∀ d ∈ descs, d.language = "en" → ∃ t, englishOf descs = some t := by
  suffices hgen : ∀ (acc : Option String), ∀ d ∈ descs, d.language = "en" →
      ∃ t, descs.foldl (fun a d => if d.language = "en" then some d.value else a)
        acc = some t by
    intro d hd hen
    exact hgen none d hd hen
  induction descs with
  | nil => intro acc d hd; cases hd
  | cons d₀ rest ih =>
      intro acc d hd hen
      simp only [List.foldl_cons]
      rcases List.mem_cons.mp hd with rfl | hd'
      · rw [if_pos hen]
        exact englishOf_fold_some rest d.value
      · by_cases h0 : d₀.language = "en"
        · rw [if_pos h0]
          exact englishOf_fold_some rest d₀.value
        · rw [if_neg h0]
          exact ih acc d hd' hen

/-- The description set owned by a (vulnerability, advisory) pair after
the drop-then-insert of one load call is exactly the keyed image of the
freshly inserted entries, whatever was stored before. -/
theorem descriptionsFor_add_after_drop (vid : String) (auuid : Nat)
    (entries : List (String × String)) (st : GraphState) :
    descriptionsFor vid auuid
        (add_descriptions vid auuid entries
          (drop_descriptions_for_advisory vid auuid st))
      = keyedPairs entries := by
  simp only [descriptionsFor, add_descriptions, drop_descriptions_for_advisory]
  rw [descriptions_after_replace]
  exact filter_owned_append_lift _ _ _ _
    (fun d hd => by simpa using List.of_mem_filter hd)

/-- C2 as stated fails on a document with two descriptions in the same
language: the stored description set is keyed by (language, owning
advisory), so the second English text replaces the first and the stored
set is not the full collected pair list. -/
theorem c2_counterexample_duplicate_language :
    descriptionsFor dupEnDoc.id 0
        (loadState noFailures [] dupEnDoc sampleDigests GraphState.empty)
      ≠ collectEntries (extract dupEnDoc).descriptions := by
  decide

/-- C2 amended: after a successful load the description set owned by the
upserted advisory is exactly the keyed image of the freshly collected
(language, text) pairs - for each language the last collected text -
independent of every description previously stored; when the collected
languages are pairwise distinct this is exactly the collected pair
list. -/
theorem c2_description_set_replaced (labels : List (String × String))
    (cve : Cve) (digests : Digests) (st st' : GraphState) (r : IngestResult)
    (h : load noFailures labels cve digests st = .ok (st', r)) :
    ∀ u, r.id = Id.uuid u →
      descriptionsFor cve.id u st'
        = keyedPairs (collectEntries (extract cve).descriptions)
      ∧ (((collectEntries (extract cve).descriptions).map Prod.fst).Nodup →
          descriptionsFor cve.id u st'
            = collectEntries (extract cve).descriptions) := by
  unfold load noFailures at h
  simp at h
  obtain ⟨h1, h2⟩ := h
  subst h1
  subst h2
  intro u hu
  have hu' := hu
  simp at hu'
  subst hu'
  constructor
  · exact descriptionsFor_add_after_drop _ _ _ _
  · intro hnd
    rw [descriptionsFor_add_after_drop, keyedPairs_self_of_nodup _ hnd]

/-- C2 witness: at the representative record (its description languages
are distinct) the stored set equals the collected pairs. -/
theorem c2_description_set_replaced_witness :
    load noFailures [] sampleDoc sampleDigests GraphState.empty
      = .ok (sampleState, sampleResult)
    ∧ sampleResult.id = Id.uuid 0
    ∧ descriptionsFor sampleDoc.id 0 sampleState
        = collectEntries (extract sampleDoc).descriptions :=
  ⟨rfl, rfl,
   (c2_description_set_replaced [] sampleDoc sampleDigests GraphState.empty
      sampleState sampleResult rfl 0 rfl).2 (by decide)⟩

/-- C7 claims the English text becomes the advisory-level summary of the
link metadata; in the code the summary field is always left empty
(`summary: None`) and the English text goes into the description
field. -/
theorem c7_counterexample_summary_is_none :
    englishOf (extract sampleDoc).descriptions = some "english text"
    ∧ linkSummary 0 sampleDoc.id sampleState ≠ some "english text"
    ∧ linkSummary 0 sampleDoc.id sampleState = none
    ∧ linkDescription 0 sampleDoc.id sampleState = some "english text" := by
  refine ⟨rfl, ?_, rfl, rfl⟩
  decide

/-- C7 amended: the loader retains the English text (the last
description with language en, when one exists) separately from the
collected pair list and attaches it as the description field of the
per-advisory link metadata, leaving the summary field empty. -/
theorem c7_english_description_into_link (labels : List (String × String))
    (cve : Cve) (digests : Digests) (st st' : GraphState) (r : IngestResult)
    (h : load noFailures labels cve digests st = .ok (st', r)) :
    ∀ u, r.id = Id.uuid u →
      getLink u cve.id st' = some ⟨u, cve.id, some (linkInfoOf cve)⟩
      ∧ linkDescription u cve.id st' = englishOf (extract cve).descriptions
      ∧ linkSummary u cve.id st' = none
      ∧ (∀ d ∈ (extract cve).descriptions, d.language = "en" →
          ∃ t, englishOf (extract cve).descriptions = some t) := by
  unfold load noFailures at h
  simp at h
  obtain ⟨h1, h2⟩ := h
  subst h1
  subst h2
  intro u hu
  have hu' := hu
  simp at hu'
  subst hu'
  refine ⟨?_, ?_, ?_, fun d hd hen => englishOf_some_of_mem_en _ d hd hen⟩
  · exact find_upsertLink _ cve.id (some (linkInfoOf cve)) st.links
  · exact linkDescription_eq _ _ _ (linkInfoOf cve)
      (find_upsertLink _ cve.id (some (linkInfoOf cve)) st.links)
  · exact linkSummary_eq _ _ _ (linkInfoOf cve)
      (find_upsertLink _ cve.id (some (linkInfoOf cve)) st.links)

/-- C7 witness: the link metadata at the representative record. -/
theorem c7_english_description_into_link_witness :
    load noFailures [] sampleDoc sampleDigests GraphState.empty
      = .ok (sampleState, sampleResult)
    ∧ getLink 0 sampleDoc.id sampleState
        = some ⟨0, sampleDoc.id, some (linkInfoOf sampleDoc)⟩
    ∧ linkDescription 0 sampleDoc.id sampleState
        = englishOf (extract sampleDoc).descriptions
    ∧ linkSummary 0 sampleDoc.id sampleState = none :=
  ⟨rfl,
   (c7_english_description_into_link [] sampleDoc sampleDigests GraphState.empty
      sampleState sampleResult rfl 0 rfl).1,
   (c7_english_description_into_link [] sampleDoc sampleDigests GraphState.empty
      sampleState sampleResult rfl 0 rfl).2.1,
   (c7_english_description_into_link [] sampleDoc sampleDigests GraphState.empty
      sampleState sampleResult rfl 0 rfl).2.2.1⟩

theorem upsertVuln_idem (id : String) (info : VulnerabilityInformation) :
    ∀ l, upsertVuln id info (upsertVuln id info l) = upsertVuln id info l := by
  intro l
  induction l with
  | nil => simp [upsertVuln]
  | cons v rest ih =>
      by_cases hc : v.identifier = id
      · simp [upsertVuln, hc]
      · simp [upsertVuln, hc, ih]

theorem upsertLink_idem (auuid : Nat) (vid : String)
    (info : Option AdvisoryVulnerabilityInformation) :
    ∀ l, upsertLink auuid vid info (upsertLink auuid vid info l)
      = upsertLink auuid vid info l := by
  intro l
  induction l with
  | nil => simp [upsertLink]
  | cons x rest ih =>
      by_cases hc : x.advisoryUuid = auuid ∧ x.vulnerabilityId = vid
      · simp [upsertLink, hc]
      · simp [upsertLink, hc, ih]

theorem upsertAdvisory_idem (id : String) (labels : List (String × String))
    (digest : String) (info : AdvisoryInformation) :
    ∀ (l : List AdvisoryRow) (n : Nat),
      upsertAdvisory id labels digest info
          (upsertAdvisory id labels digest info n l).2.2
          (upsertAdvisory id labels digest info n l).1
        = upsertAdvisory id labels digest info n l := by
  intro l
  induction l with
  | nil => intro n; simp [upsertAdvisory]
  | cons a rest ih =>
      intro n
      by_cases hc : a.identifier = id ∧ a.sha256 = digest
      · obtain ⟨h1, h2⟩ := hc
        simp [upsertAdvisory, h1, h2]
      · have ihn := ih n
        simp only [upsertAdvisory, if_neg hc]
        simp [ihn]

theorem filter_not_owned_after_replace (vid : String) (auuid : Nat)
    (l₀ : List DescriptionRow) (ks : List (String × String))
    (h : ∀ d ∈ l₀, ownedBy vid auuid d = false) :
    (l₀ ++ ks.map (liftPair vid auuid)).filter (fun d => !(ownedBy vid auuid d))
      = l₀ := by
  rw [List.filter_append]
  have h1 : l₀.filter (fun d => !(ownedBy vid auuid d)) = l₀ := by
    rw [List.filter_eq_self]
    intro d hd
    simp [h d hd]
  have h2 : (ks.map (liftPair vid auuid)).filter
      (fun d => !(ownedBy vid auuid d)) = [] := by
    rw [List.filter_eq_nil_iff]
    intro d hd
    obtain ⟨p, _, rfl⟩ := List.mem_map.mp hd
    simp [liftPair, ownedBy]
  rw [h1, h2, List.append_nil]

/-- Dropping and re-inserting the same entry set a second time leaves
the description rows unchanged. -/
theorem descriptions_replace_idem (vid : String) (auuid : Nat)
    (entries : List (String × String)) (base : List DescriptionRow) :
    entries.foldl (fun acc e => insertDescription vid auuid e.1 e.2 acc)
        ((entries.foldl (fun acc e => insertDescription vid auuid e.1 e.2 acc)
            (base.filter (fun d => !(ownedBy vid auuid d)))).filter
          (fun d => !(ownedBy vid auuid d)))
      = entries.foldl (fun acc e => insertDescription vid auuid e.1 e.2 acc)
          (base.filter (fun d => !(ownedBy vid auuid d))) := by
  rw [descriptions_after_replace]
  rw [descriptions_after_replace]
  rw [filter_not_owned_after_replace vid auuid
    (base.filter (fun d => !(ownedBy vid auuid d))) (keyedPairs entries)
    (fun d hd => by simpa using List.of_mem_filter hd)]

/-- The state one successful load call commits, spelled out
componentwise. -/
theorem loadState_noFailures (labels : List (String × String)) (cve : Cve)
    (digests : Digests) (st : GraphState) :
    loadState noFailures labels cve digests st
      = ⟨upsertVuln cve.id (vulnInfoOf cve) st.vulnerabilities,
          (upsertAdvisory cve.id (labelsAdd labels "type" "cve") digests.sha256
            (advInfoOf cve) st.nextUuid st.advisories).1,
          upsertLink
            (upsertAdvisory cve.id (labelsAdd labels "type" "cve") digests.sha256
              (advInfoOf cve) st.nextUuid st.advisories).2.1
            cve.id (some (linkInfoOf cve)) st.links,
          (collectEntries (extract cve).descriptions).foldl
            (fun acc e => insertDescription cve.id
              (upsertAdvisory cve.id (labelsAdd labels "type" "cve") digests.sha256
                (advInfoOf cve) st.nextUuid st.advisories).2.1 e.1 e.2 acc)
            (st.descriptions.filter (fun d => !(ownedBy cve.id
              (upsertAdvisory cve.id (labelsAdd labels "type" "cve") digests.sha256
                (advInfoOf cve) st.nextUuid st.advisories).2.1 d))),
          (upsertAdvisory cve.id (labelsAdd labels "type" "cve") digests.sha256
            (advInfoOf cve) st.nextUuid st.advisories).2.2⟩ := rfl

theorem upsertPair_keys_mem (e : String × String) (a : String) :
    ∀ acc, (a ∈ (upsertPair acc e).map Prod.fst
      ↔ a = e.1 ∨ a ∈ acc.map Prod.fst) := by
  intro acc
  induction acc with
  | nil => simp [upsertPair]
  | cons q rest ih =>
      by_cases hc : q.1 = e.1
      · have hup : upsertPair (q :: rest) e = e :: rest := by
          simp [upsertPair, hc]
        rw [hup]
        simp only [List.map_cons, List.mem_cons, hc]
        tauto
      · have hup : upsertPair (q :: rest) e = q :: upsertPair rest e := by
          simp [upsertPair, hc]
        rw [hup]
        simp only [List.map_cons, List.mem_cons, ih]
        tauto

theorem upsertPair_keys_nodup (e : String × String) :
    ∀ acc, (acc.map Prod.fst).Nodup →
      ((upsertPair acc e).map Prod.fst).Nodup := by
  intro acc
  induction acc with
  | nil => intro _; simp [upsertPair]
  | cons q rest ih =>
      intro hnd
      rw [List.map_cons] at hnd
      obtain ⟨hh, ht⟩ := List.nodup_cons.mp hnd
      by_cases hc : q.1 = e.1
      · simp only [upsertPair, if_pos hc, List.map_cons]
        exact List.nodup_cons.mpr ⟨hc ▸ hh, ht⟩
      · simp only [upsertPair, if_neg hc, List.map_cons]
        refine List.nodup_cons.mpr ⟨?_, ih ht⟩
        intro hmem
        rcases (upsertPair_keys_mem e q.1 rest).mp hmem with h | h
        · exact hc h
        · exact hh h

/-- The keyed image never stores two entries with the same language. -/
theorem keyedPairs_keys_nodup (l : List (String × String)) :
    ((keyedPairs l).map Prod.fst).Nodup := by
  suffices hgen : ∀ acc, (acc.map Prod.fst).Nodup →
      ((l.foldl upsertPair acc).map Prod.fst).Nodup by
    exact hgen [] (by simp)
  induction l with
  | nil => intro acc h; exact h
  | cons e es ih =>
      intro acc h
      simp only [List.foldl_cons]
      exact ih _ (upsertPair_keys_nodup e acc h)

/-- The keyed image stores exactly the languages of the entry list. -/
theorem keyedPairs_keys_mem (l : List (String × String)) (a : String) :
    a ∈ (keyedPairs l).map Prod.fst ↔ a ∈ l.map Prod.fst := by
  suffices hgen : ∀ acc, (a ∈ (l.foldl upsertPair acc).map Prod.fst
      ↔ a ∈ acc.map Prod.fst ∨ a ∈ l.map Prod.fst) by
    simpa [keyedPairs] using hgen []
  induction l with
  | nil => intro acc; simp
  | cons e es ih =>
      intro acc
      simp only [List.foldl_cons, List.map_cons, List.mem_cons]
      rw [ih (upsertPair acc e), upsertPair_keys_mem]
      tauto

/-- Per-language row count in the lifted keyed image. -/
theorem filter_lang_map_lift_len (vid : String) (auuid : Nat) (lang : String) :
    ∀ ks : List (String × String), (ks.map Prod.fst).Nodup →
      ((ks.map (liftPair vid auuid)).filter
          (fun d => d.advisoryUuid == auuid && d.language == lang)).length
        = if lang ∈ ks.map Prod.fst then 1 else 0 := by
  intro ks
  induction ks with
  | nil => intro _; simp
  | cons p rest ih =>
      intro hnd
      rw [List.map_cons] at hnd
      obtain ⟨hh, ht⟩ := List.nodup_cons.mp hnd
      by_cases hl : p.1 = lang
      · subst hl
        simp only [List.map_cons]
        rw [List.filter_cons]
        simp [liftPair, ih ht, hh]
      · have hl' : ¬ lang = p.1 := fun e => hl e.symm
        have hmem : (lang ∈ p.1 :: rest.map Prod.fst) ↔ lang ∈ rest.map Prod.fst := by
          simp [List.mem_cons, hl']
        simp only [List.map_cons]
        rw [List.filter_cons]
        have hcond : ((liftPair vid auuid p).advisoryUuid == auuid
            && (liftPair vid auuid p).language == lang) = false := by
          simp [liftPair, hl]
        rw [hcond, if_neg (by simp : ¬ (false = true)), ih ht]
        by_cases hm : lang ∈ rest.map Prod.fst
        · rw [if_pos hm, if_pos (hmem.mpr hm)]
        · rw [if_neg hm, if_neg (fun hcon => hm (hmem.mp hcon))]

/-- C3: re-running the load of the same parsed document with the same
digests commits exactly the state of the first run; starting from the
empty graph, two runs leave exactly one vulnerability row for the
identifier, exactly one advisory row keyed by (identifier, digest), and
exactly one description row per language of the document for the
upserted advisory - never two. -/
theorem c3_idempotent_reingestion (labels : List (String × String)) (cve : Cve)
    (digests : Digests) :
    (∀ st, loadState noFailures labels cve digests
        (loadState noFailures labels cve digests st)
      = loadState noFailures labels cve digests st)
    ∧ ((loadState noFailures labels cve digests
          (loadState noFailures labels cve digests GraphState.empty)).vulnerabilities.filter
            (fun v => v.identifier == cve.id)).length = 1
    ∧ ((loadState noFailures labels cve digests
          (loadState noFailures labels cve digests GraphState.empty)).advisories.filter
            (fun a => a.identifier == cve.id && a.sha256 == digests.sha256)).length = 1
    ∧ ∀ lang,
        ((loadState noFailures labels cve digests
            (loadState noFailures labels cve digests GraphState.empty)).descriptions.filter
              (fun d => d.advisoryUuid == 0 && d.language == lang)).length ≤ 1
        ∧ (lang ∈ (collectEntries (extract cve).descriptions).map Prod.fst →
            ((loadState noFailures labels cve digests
              (loadState noFailures labels cve digests GraphState.empty)).descriptions.filter
                (fun d => d.advisoryUuid == 0 && d.language == lang)).length = 1) := by
  have hadv := upsertAdvisory_idem cve.id (labelsAdd labels "type" "cve")
    digests.sha256 (advInfoOf cve)
  have honce : ∀ st, loadState noFailures labels cve digests
      (loadState noFailures labels cve digests st)
    = loadState noFailures labels cve digests st := by
    intro st
    simp only [loadState_noFailures]
    rw [GraphState.mk.injEq]
    refine ⟨upsertVuln_idem _ _ _, ?_, ?_, ?_, ?_⟩
    · exact congrArg Prod.fst (hadv st.advisories st.nextUuid)
    · rw [hadv st.advisories st.nextUuid]
      exact upsertLink_idem _ _ _ _
    · rw [hadv st.advisories st.nextUuid]
      exact descriptions_replace_idem _ _ _ _
    · exact congrArg (fun p => p.2.2) (hadv st.advisories st.nextUuid)
  have hempty : loadState noFailures labels cve digests GraphState.empty
      = ⟨[⟨cve.id, vulnInfoOf cve⟩],
          [⟨0, cve.id, digests.sha256, labelsAdd labels "type" "cve", advInfoOf cve⟩],
          [⟨0, cve.id, some (linkInfoOf cve)⟩],
          (keyedPairs (collectEntries (extract cve).descriptions)).map
            (liftPair cve.id 0),
          1⟩ := by
    rw [loadState_noFailures, GraphState.mk.injEq]
    refine ⟨rfl, rfl, rfl, ?_, rfl⟩
    simpa [keyedPairs, GraphState.empty, upsertAdvisory] using
      foldl_insert_map_lift cve.id 0
        (collectEntries (extract cve).descriptions) []
  refine ⟨honce, ?_, ?_, ?_⟩
  · rw [honce GraphState.empty, hempty]
    simp
  · rw [honce GraphState.empty, hempty]
    simp
  · intro lang
    rw [honce GraphState.empty, hempty]
    have hcount := filter_lang_map_lift_len cve.id 0 lang
      (keyedPairs (collectEntries (extract cve).descriptions))
      (keyedPairs_keys_nodup _)
    constructor
    · rw [show (⟨[⟨cve.id, vulnInfoOf cve⟩],
          [⟨0, cve.id, digests.sha256, labelsAdd labels "type" "cve", advInfoOf cve⟩],
          [⟨0, cve.id, some (linkInfoOf cve)⟩],
          (keyedPairs (collectEntries (extract cve).descriptions)).map
            (liftPair cve.id 0),
          1⟩ : GraphState).descriptions
        = (keyedPairs (collectEntries (extract cve).descriptions)).map
            (liftPair cve.id 0) from rfl]
      rw [hcount]
      split <;> simp
    · intro hm
      rw [show (⟨[⟨cve.id, vulnInfoOf cve⟩],
          [⟨0, cve.id, digests.sha256, labelsAdd labels "type" "cve", advInfoOf cve⟩],
          [⟨0, cve.id, some (linkInfoOf cve)⟩],
          (keyedPairs (collectEntries (extract cve).descriptions)).map
            (liftPair cve.id 0),
          1⟩ : GraphState).descriptions
        = (keyedPairs (collectEntries (extract cve).descriptions)).map
            (liftPair cve.id 0) from rfl]
      rw [hcount, if_pos ((keyedPairs_keys_mem _ lang).mpr hm)]

/-- C3 witness: two runs of the representative record from the empty
graph, with the English row counted once. -/
theorem c3_idempotent_reingestion_witness :
    (loadState noFailures [] sampleDoc sampleDigests
        (loadState noFailures [] sampleDoc sampleDigests GraphState.empty)
      = loadState noFailures [] sampleDoc sampleDigests GraphState.empty)
    ∧ "en" ∈ (collectEntries (extract sampleDoc).descriptions).map Prod.fst
    ∧ ((loadState noFailures [] sampleDoc sampleDigests
          (loadState noFailures [] sampleDoc sampleDigests GraphState.empty)).descriptions.filter
            (fun d => d.advisoryUuid == 0 && d.language == "en")).length = 1 :=
  ⟨(c3_idempotent_reingestion [] sampleDoc sampleDigests).1 GraphState.empty,
   by decide,
   ((c3_idempotent_reingestion [] sampleDoc sampleDigests).2.2.2 "en").2 (by decide)⟩

/-! ## The CVE corpus walker handler

`CveHandler::process` of runner/cve/walker.rs.  The walker common module
(the `ProcessingError`, `CallbackError` and `HandlerError` types) is not
among the analysed sources; its variants are modelled from their uses in
walker.rs and from the error classification of the spec (sections 4.5
and 7). -/

/-- `"…".parse::<u16>()`: an optional leading plus sign, then at least
one decimal digit, and the value must fit in 16 bits. -/
def parseU16 (s : String) : Option Nat :=
  let digits := match s.toList with
    | '+' :: rest => rest
    | l => l
  if digits.isEmpty then none
  else if digits.all Char.isDigit then
    let n := digits.foldl (fun acc c => acc * 10 + (c.toNat - 48)) 0
    if n < 65536 then some n else none
  else none

/-- Modelled from the spec: the per-file processing error of the walker
common module (not among the analysed sources).  walker.rs matches its
`Critical` and `Canceled` variants; every remaining variant (such as an
io failure while reading the file) is a skippable per-file error in the
sense of section 7. -/
inductive ProcessingError where
  | critical (msg : String) : ProcessingError
  | canceled : ProcessingError
  | skippable (msg : String) : ProcessingError
deriving DecidableEq

/-- Modelled from the spec: the error a registered callback may return,
as matched in `CveHandler::process_file`. -/
inductive CallbackError where
  | processing (msg : String) : CallbackError
  | canceled : CallbackError
deriving DecidableEq

/-- Modelled from the spec: the error type a walker handler returns;
walker.rs constructs `HandlerError::Processing(Error::Processing(err))`
and `HandlerError::Canceled`. -/
inductive HandlerError where
  | processing (msg : String) : HandlerError
  | canceled : HandlerError
deriving DecidableEq

/-- The year filters of the CVE walker handler. -/
structure CveHandler where
  years : List Nat
  startYear : Option Nat
deriving DecidableEq

/-- What one `process` call did.  The code returns `Ok(())` both when a
file is filtered out and after reporting a skippable error through the
non-fatal callback; the outcome keeps those observable side effects
(whether the file reached `process_file`, and the error reported through
`loading_error`, if any). -/
inductive ProcessOutcome where
  | skipped : ProcessOutcome
  | success (reported : Option String) : ProcessOutcome
  | abortCritical (msg : String) : ProcessOutcome
  | abortCanceled : ProcessOutcome
deriving DecidableEq

/-- The value `process` actually returns for each outcome. -/
def ProcessOutcome.toResult : ProcessOutcome → Except HandlerError Unit
  | .skipped => .ok ()
  | .success _ => .ok ()
  | .abortCritical e => .error (.processing e)
  | .abortCanceled => .error .canceled

/-- The match on the `process_file` result (walker.rs lines 58-70):
a critical error aborts the walk, cancellation aborts without failure,
any other error is reported through the callback and swallowed. -/
def classifyFileResult : Except ProcessingError Unit → ProcessOutcome
  | .ok () => .success none
  | .error (.critical e) => .abortCritical e
  | .error .canceled => .abortCanceled
  | .error (.skippable e) => .success (some e)

/-- `CveHandler::process`: take the first segment of the relative path
as the year (skip when it does not parse), apply the years allow-set,
apply the minimum start year, then hand the file outcome to the error
classification.  `fileOutcome` stands for the result of
`process_file` on this file. -/
def CveHandler.process (h : CveHandler) (relativePath : List String)
    (fileOutcome : Except ProcessingError Unit) : ProcessOutcome :=
  match relativePath.head?.bind parseU16 with
  | none => .skipped
  | some year =>
    if !h.years.isEmpty && !h.years.contains year then .skipped
    else
      match h.startYear with
      | some startYear =>
          if year < startYear then .skipped
          else classifyFileResult fileOutcome
      | none => classifyFileResult fileOutcome

/-- `CveHandler::process_file` (walker.rs lines 78-99): only files with
the json extension are read (any other extension is skipped without
error); a read failure is a skippable per-file error; a callback
`Processing` error becomes `Critical`, a callback cancellation becomes
`Canceled`. -/
def process_file (extension : Option String) (readOutcome : Except String Unit)
    (callbackOutcome : Except CallbackError Unit) : Except ProcessingError Unit :=
  match extension with
  | some "json" =>
    match readOutcome with
    | .error e => .error (.skippable e)
    | .ok () =>
      match callbackOutcome with
      | .ok () => .ok ()
      | .error (.processing e) => .error (.critical e)
      | .error .canceled => .error .canceled
  | _ => .ok ()

/-- C8: a file whose first relative-path segment does not parse as a
year is skipped with success; a non-empty years set excludes years
outside it; a configured start year excludes smaller years; and with
years = [2023] and start year 2022 the three example files behave as
the spec states (paths are relative to the cves base the walker is
rooted at). -/
theorem c8_walker_year_filtering (h : CveHandler) (rel : List String)
    (f : Except ProcessingError Unit) :
    (rel.head?.bind parseU16 = none →
      h.process rel f = .skipped ∧ (h.process rel f).toResult = .ok ())
    ∧ (∀ year, rel.head?.bind parseU16 = some year →
        h.years ≠ [] → year ∉ h.years → h.process rel f = .skipped)
    ∧ (∀ year s, rel.head?.bind parseU16 = some year →
        h.startYear = some s → year < s → h.process rel f = .skipped)
    ∧ ((⟨[2023], some 2022⟩ : CveHandler).process ["2021", "CVE-2021-1.json"] f
        = .skipped)
    ∧ ((⟨[2023], some 2022⟩ : CveHandler).process ["2023", "CVE-2023-1.json"] (.ok ())
        = .success none)
    ∧ ((⟨[2023], some 2022⟩ : CveHandler).process ["2024", "CVE-2024-1.json"] f
        = .skipped) := by
  refine ⟨?_, ?_, ?_, ?_, ?_, ?_⟩
  · intro hp
    simp [CveHandler.process, hp, ProcessOutcome.toResult]
  · intro year hp hne hmem
    have hs : (!h.years.isEmpty && !h.years.contains year) = true := by
      simp [List.isEmpty_iff, hne, hmem]
    simp only [CveHandler.process, hp]
    rw [hs]
    rfl
  · intro year s hp hs hlt
    cases hset : (!h.years.isEmpty && !h.years.contains year) with
    | true =>
        simp only [CveHandler.process, hp]
        rw [hset]
        rfl
    | false =>
        simp only [CveHandler.process, hp]
        rw [hset]
        simp [hs, hlt]
  · rfl
  · rfl
  · rfl

/-- C8 witness: the filter hypotheses discharged at concrete inputs. -/
theorem c8_walker_year_filtering_witness :
    ((⟨[2023], some 2022⟩ : CveHandler).process ["not-a-year", "f.json"] (.ok ())
        = .skipped
      ∧ ((⟨[2023], some 2022⟩ : CveHandler).process ["not-a-year", "f.json"] (.ok ())).toResult
        = .ok ())
    ∧ ((⟨[2023], none⟩ : CveHandler).process ["2019", "f.json"] (.ok ()) = .skipped)
    ∧ ((⟨[], some 2022⟩ : CveHandler).process ["2020", "f.json"] (.ok ()) = .skipped) :=
  ⟨(c8_walker_year_filtering ⟨[2023], some 2022⟩ ["not-a-year", "f.json"] (.ok ())).1 (by decide),
   (c8_walker_year_filtering ⟨[2023], none⟩ ["2019", "f.json"] (.ok ())).2.1 2019 (by decide)
     (by decide) (by decide),
   (c8_walker_year_filtering ⟨[], some 2022⟩ ["2020", "f.json"] (.ok ())).2.2.1 2020 2022
     (by decide) rfl (by decide)⟩

/-- C9: for a file that passes the year filters, a critical per-file
error aborts the walk as a handler error, a cancellation aborts the walk
as a cancellation, and every other error is reported through the
non-fatal callback while the handler returns success. -/
theorem c9_walker_error_classification (h : CveHandler) (rel : List String) (year : Nat)
    (hp : rel.head?.bind parseU16 = some year)
    (hset : h.years = [] ∨ year ∈ h.years)
    (hstart : ∀ s, h.startYear = some s → s ≤ year) :
    (∀ e, h.process rel (.error (.critical e)) = .abortCritical e
      ∧ (h.process rel (.error (.critical e))).toResult = .error (.processing e))
    ∧ (h.process rel (.error .canceled) = .abortCanceled
      ∧ (h.process rel (.error .canceled)).toResult = .error .canceled)
    ∧ (∀ e, h.process rel (.error (.skippable e)) = .success (some e)
      ∧ (h.process rel (.error (.skippable e))).toResult = .ok ()) := by
  have hs : (!h.years.isEmpty && !h.years.contains year) = false := by
    rcases hset with he | hm
    · simp [he]
    · simp [hm]
  have key : ∀ f : Except ProcessingError Unit,
      h.process rel f = classifyFileResult f := by
    intro f
    simp only [CveHandler.process, hp]
    rw [hs]
    cases hsy : h.startYear with
    | none => simp
    | some s =>
        have hnl : ¬ year < s := Nat.not_lt.mpr (hstart s hsy)
        simp [hnl]
  refine ⟨fun e => ⟨?_, ?_⟩, ⟨?_, ?_⟩, fun e => ⟨?_, ?_⟩⟩ <;>
    simp [key, classifyFileResult, ProcessOutcome.toResult]

/-- C9 witness: the classification at a concrete passing file. -/
theorem c9_walker_error_classification_witness :
    ((⟨[2023], some 2022⟩ : CveHandler).process ["2023", "f.json"]
        (.error (.critical "boom")) = .abortCritical "boom")
    ∧ ((⟨[2023], some 2022⟩ : CveHandler).process ["2023", "f.json"]
        (.error .canceled) = .abortCanceled)
    ∧ ((⟨[2023], some 2022⟩ : CveHandler).process ["2023", "f.json"]
        (.error (.skippable "io")) = .success (some "io")) :=
  ⟨((c9_walker_error_classification ⟨[2023], some 2022⟩ ["2023", "f.json"] 2023 (by decide)
      (by decide) (by intro s hs; cases hs; decide)).1 "boom").1,
   ((c9_walker_error_classification ⟨[2023], some 2022⟩ ["2023", "f.json"] 2023 (by decide)
      (by decide) (by intro s hs; cases hs; decide)).2.1).1,
   ((c9_walker_error_classification ⟨[2023], some 2022⟩ ["2023", "f.json"] 2023 (by decide)
      (by decide) (by intro s hs; cases hs; decide)).2.2 "io").1⟩

end Trustify
